import Mathlib

/-!
# Verification of the FutarchyDAO FHE governance contract

Shallow embedding of `FutarchyDAOGovernanceFHE` (Solidity, `futarchyDAO_FHE.sol`).

Modelling conventions:
* Addresses, `uint256` values and `bytes32` words are `Nat`.  Solidity 0.8
  checked arithmetic reverts on overflow at `2^256`; the increments and
  additions modelled here (`currentBatchId + 1`, `lastTime + cooldown`) are
  kept as plain `Nat` arithmetic, since no claim depends on wrap-around and
  the overflow point is unreachable in any feasible execution.
* An `euint32` handle is its underlying `bytes32` word, a `Nat`.
  `FHE.isInitialized h` is `h != 0`, exactly the fhevm library semantics
  (a handle is initialized iff its `bytes32` representation is nonzero).
* Each external function becomes a function
  `args → ContractState → Except Err ContractState`.  A revert is
  `Except.error e`: per EVM semantics the caller's state is untouched, so
  "fails and changes no state" is expressed by the result being `.error`.
* `msg.sender` and `block.timestamp` are explicit `sender`/`now` arguments.
* `FHE.requestDecryption` returns a fresh, globally unique request id chosen
  by the external coprocessor; we model it as an explicit `requestId`
  argument of `requestGovernanceDecision`.  `FHE.checkSignatures` is the
  external proof-verification primitive; we model its verdict as an explicit
  `proofValid : Bool` argument of `myCallback` (reverting when false).
* `keccak256` is modelled as an injective stand-in on the abi-encoded words
  (collision resistance is modelled as injectivity).
* Events are accumulated in a list, most recent first.
-/

namespace FutarchyDAO

/-- The size of a 256-bit machine word (`bytes32` / `uint256`). -/
def wordSize : Nat := 2 ^ 256

/-- `struct Proposal`: the triple of euint32 handles stored per batch id. -/
structure Proposal where
  encryptedProposalId : Nat
  encryptedTargetValue : Nat
  encryptedMarketPrediction : Nat
  deriving Repr, DecidableEq

/-- `struct DecryptionContext`: per-request bookkeeping. -/
structure DecryptionContext where
  batchId : Nat
  stateHash : Nat
  processed : Bool
  deriving Repr, DecidableEq

/-- The all-zero `DecryptionContext`, what a Solidity mapping returns for a
request id that was never written (batch id 0, zero fingerprint,
`processed = false`). -/
def zeroContext : DecryptionContext := ⟨0, 0, false⟩

/-- The contract's custom errors (plus `InvalidProof` for a revert raised
inside the external `FHE.checkSignatures` primitive). -/
inductive Err where
  | NotOwner
  | NotProvider
  | Paused
  | CooldownActive
  | BatchClosed
  | ReplayAttempt
  | StateMismatch
  | InvalidBatchId
  | ProposalNotInitialized
  | InvalidProof
  deriving Repr, DecidableEq

/-- The contract's events. -/
inductive Event where
  | OwnershipTransferred (previousOwner newOwner : Nat)
  | ProviderAdded (provider : Nat)
  | ProviderRemoved (provider : Nat)
  | Paused (account : Nat)
  | Unpaused (account : Nat)
  | CooldownSet (oldCooldownSeconds newCooldownSeconds : Nat)
  | BatchOpened (batchId : Nat)
  | BatchClosed (batchId : Nat)
  | ProposalSubmitted (batchId provider : Nat)
  | DecryptionRequested (requestId batchId : Nat)
  | DecryptionCompleted (requestId batchId proposalId targetValue marketPrediction : Nat)
      (governanceDecision : Bool)
  deriving Repr, DecidableEq

/-- The full storage of one deployed `FutarchyDAOGovernanceFHE` instance.
`thisAddr` is `address(this)` (fixed at deployment); mappings are total
functions defaulting to the Solidity zero value. -/
structure ContractState where
  thisAddr : Nat
  owner : Nat
  isProvider : Nat → Bool
  lastSubmissionTime : Nat → Nat
  lastDecryptionRequestTime : Nat → Nat
  paused : Bool
  cooldownSeconds : Nat
  currentBatchId : Nat
  batchOpen : Bool
  proposals : Nat → Proposal
  decryptionContexts : Nat → DecryptionContext
  events : List Event

/-- Point update of a `Nat`-keyed mapping (Solidity `m[k] = v`). -/
def updateMap {α : Type} (f : Nat → α) (k : Nat) (v : α) : Nat → α :=
  fun x => if x = k then v else f x

/-- `FHE.isInitialized`: a handle is initialized iff its underlying
`bytes32` word is nonzero. -/
def FHE.isInitialized (val : Nat) : Bool := val != 0

/-- `FHE.toBytes32`: expose the handle's underlying `bytes32` word. -/
def FHE.toBytes32 (val : Nat) : Nat := val % wordSize

/-- `FHE.asEuint32`: the coprocessor materializes a fresh trivial ciphertext
and returns its (nonzero, hence initialized) handle.  The concrete handle
value is chosen by the external coprocessor; the contract only ever
discards it (see `_initIfNeeded`), so the model fixes an arbitrary nonzero
handle. -/
def FHE.asEuint32 (_value : Nat) : Nat := 1

/-- `abi.encode(bytes32[3], address)`: concatenation of 256-bit words. -/
def abiEncodeWords (words : List Nat) : Nat :=
  words.foldl (fun acc w => acc * wordSize + w % wordSize) 0

/-- Stand-in for `keccak256` on an abi-encoded byte string: an injective
function of the encoding (collision resistance modelled as injectivity);
never returns the zero word. -/
def keccak256 (encoded : Nat) : Nat := encoded + 1

/-- `_hashCiphertexts(cts)`: `keccak256(abi.encode(ctsAsBytes32, address(this)))`
where `ctsAsBytes32[i] = FHE.toBytes32(cts[i])`. -/
def _hashCiphertexts (cts : List Nat) (thisAddr : Nat) : Nat :=
  keccak256 (abiEncodeWords (cts.map FHE.toBytes32 ++ [thisAddr]))

/-- `_initIfNeeded(val)`: when `val` is uninitialized the source calls
`FHE.asEuint32(0)` but ignores the returned handle; `val` is an `euint32`
value-type argument, so nothing observable by the contract's storage
changes.  The translation makes the discarded call explicit. -/
def _initIfNeeded (val : Nat) : Unit :=
  if !(FHE.isInitialized val) then
    let _ := FHE.asEuint32 0
    ()
  else ()

/-- `_isProposalInitialized(batchId)`: all three stored handles nonzero. -/
def _isProposalInitialized (s : ContractState) (batchId : Nat) : Bool :=
  let p := s.proposals batchId
  FHE.isInitialized p.encryptedProposalId &&
  FHE.isInitialized p.encryptedTargetValue &&
  FHE.isInitialized p.encryptedMarketPrediction

/-- The `constructor`: deployer becomes owner and an authorized provider
(`ProviderAdded` emitted), default cooldown 60 seconds; everything else is
the Solidity zero value. -/
def deploy (sender thisAddr : Nat) : ContractState :=
  { thisAddr := thisAddr
    owner := sender
    isProvider := updateMap (fun _ => false) sender true
    lastSubmissionTime := fun _ => 0
    lastDecryptionRequestTime := fun _ => 0
    paused := false
    cooldownSeconds := 60
    currentBatchId := 0
    batchOpen := false
    proposals := fun _ => ⟨0, 0, 0⟩
    decryptionContexts := fun _ => zeroContext
    events := [Event.ProviderAdded sender] }

/-- `transferOwnership(newOwner)`: `onlyOwner`. -/
def transferOwnership (sender newOwner : Nat) (s : ContractState) :
    Except Err ContractState :=
  if sender ≠ s.owner then .error .NotOwner
  else .ok { s with
    owner := newOwner
    events := Event.OwnershipTransferred s.owner newOwner :: s.events }

/-- `addProvider(provider)`: `onlyOwner`; idempotent (no event when already
a provider). -/
def addProvider (sender provider : Nat) (s : ContractState) :
    Except Err ContractState :=
  if sender ≠ s.owner then .error .NotOwner
  else if !(s.isProvider provider) then
    .ok { s with
      isProvider := updateMap s.isProvider provider true
      events := Event.ProviderAdded provider :: s.events }
  else .ok s

/-- `removeProvider(provider)`: `onlyOwner`; idempotent. -/
def removeProvider (sender provider : Nat) (s : ContractState) :
    Except Err ContractState :=
  if sender ≠ s.owner then .error .NotOwner
  else if s.isProvider provider then
    .ok { s with
      isProvider := updateMap s.isProvider provider false
      events := Event.ProviderRemoved provider :: s.events }
  else .ok s

/-- `pause()`: `onlyOwner whenNotPaused`. -/
def pause (sender : Nat) (s : ContractState) : Except Err ContractState :=
  if sender ≠ s.owner then .error .NotOwner
  else if s.paused then .error .Paused
  else .ok { s with paused := true, events := Event.Paused sender :: s.events }

/-- `unpause()`: `onlyOwner` (no pause check: idempotent). -/
def unpause (sender : Nat) (s : ContractState) : Except Err ContractState :=
  if sender ≠ s.owner then .error .NotOwner
  else .ok { s with paused := false, events := Event.Unpaused sender :: s.events }

/-- `setCooldownSeconds(newCooldownSeconds)`: `onlyOwner`. -/
def setCooldownSeconds (sender newCooldownSeconds : Nat) (s : ContractState) :
    Except Err ContractState :=
  if sender ≠ s.owner then .error .NotOwner
  else .ok { s with
    cooldownSeconds := newCooldownSeconds
    events := Event.CooldownSet s.cooldownSeconds newCooldownSeconds :: s.events }

/-- `openBatch()`: `onlyOwner whenNotPaused`; increments `currentBatchId`
and opens the batch. -/
def openBatch (sender : Nat) (s : ContractState) : Except Err ContractState :=
  if sender ≠ s.owner then .error .NotOwner
  else if s.paused then .error .Paused
  else .ok { s with
    currentBatchId := s.currentBatchId + 1
    batchOpen := true
    events := Event.BatchOpened (s.currentBatchId + 1) :: s.events }

/-- `closeBatch()`: `onlyOwner whenNotPaused`. -/
def closeBatch (sender : Nat) (s : ContractState) : Except Err ContractState :=
  if sender ≠ s.owner then .error .NotOwner
  else if s.paused then .error .Paused
  else .ok { s with
    batchOpen := false
    events := Event.BatchClosed s.currentBatchId :: s.events }

/-- `submitProposal(pid, tv, mp)`: `onlyProvider whenNotPaused respectCooldown`,
then `BatchClosed` check, then records `block.timestamp` as the sender's
last submission time, invokes `_initIfNeeded` on each handle (whose results
the source discards), stores the original argument triple under
`currentBatchId` and emits `ProposalSubmitted`. -/
def submitProposal (sender now pid tv mp : Nat) (s : ContractState) :
    Except Err ContractState :=
  if !(s.isProvider sender) then .error .NotProvider
  else if s.paused then .error .Paused
  else if now < s.lastSubmissionTime sender + s.cooldownSeconds then
    .error .CooldownActive
  else if !s.batchOpen then .error .BatchClosed
  else
    let _ := _initIfNeeded pid
    let _ := _initIfNeeded tv
    let _ := _initIfNeeded mp
    .ok { s with
      lastSubmissionTime := updateMap s.lastSubmissionTime sender now
      proposals := updateMap s.proposals s.currentBatchId ⟨pid, tv, mp⟩
      events := Event.ProposalSubmitted s.currentBatchId sender :: s.events }

/-- `requestGovernanceDecision(batchId)`:
`onlyProvider whenNotPaused respectDecryptionCooldown`; requires
`batchId == currentBatchId` and a fully initialized proposal; records the
sender's last decryption-request time, fingerprints the three stored
handles together with `address(this)`, asks the external service for a
decryption (`requestId` is the fresh id it allocates) and stores a new
unprocessed `DecryptionContext` under that id. -/
def requestGovernanceDecision (sender now batchId requestId : Nat)
    (s : ContractState) : Except Err ContractState :=
  if !(s.isProvider sender) then .error .NotProvider
  else if s.paused then .error .Paused
  else if now < s.lastDecryptionRequestTime sender + s.cooldownSeconds then
    .error .CooldownActive
  else if batchId ≠ s.currentBatchId then .error .InvalidBatchId
  else if !(_isProposalInitialized s batchId) then .error .ProposalNotInitialized
  else
    let p := s.proposals batchId
    let ctsArray := [p.encryptedProposalId, p.encryptedTargetValue,
                     p.encryptedMarketPrediction]
    let stateHash := _hashCiphertexts ctsArray s.thisAddr
    .ok { s with
      lastDecryptionRequestTime := updateMap s.lastDecryptionRequestTime sender now
      decryptionContexts := updateMap s.decryptionContexts requestId
        ⟨batchId, stateHash, false⟩
      events := Event.DecryptionRequested requestId batchId :: s.events }

/-- `bool governanceDecision = marketPrediction >= targetValue` (line 207):
non-strict comparison, a tie passes. -/
def governanceDecision (targetValue marketPrediction : Nat) : Bool :=
  decide (marketPrediction ≥ targetValue)

/-- `myCallback(requestId, cleartexts, proof)` — public, no modifiers.
`cleartexts` is modelled post-`abi.decode` as the `uint256` triple
`(proposalId, targetValue, marketPrediction)`; `proofValid` is the verdict
of the external `FHE.checkSignatures` primitive, which reverts when the
proof does not attest the cleartexts for this request id.  Order of
checks: replay, then state-hash freshness, then proof, then decode and
settle (`processed := true`, `DecryptionCompleted` emitted). -/
def myCallback (requestId : Nat) (cleartexts : Nat × Nat × Nat)
    (proofValid : Bool) (s : ContractState) : Except Err ContractState :=
  if (s.decryptionContexts requestId).processed then .error .ReplayAttempt
  else
    let ctx := s.decryptionContexts requestId
    let batchId := ctx.batchId
    let p := s.proposals batchId
    let currentCts := [p.encryptedProposalId, p.encryptedTargetValue,
                       p.encryptedMarketPrediction]
    let currentStateHash := _hashCiphertexts currentCts s.thisAddr
    if currentStateHash ≠ ctx.stateHash then .error .StateMismatch
    else if !proofValid then .error .InvalidProof
    else
      let proposalId := cleartexts.1
      let targetValue := cleartexts.2.1
      let marketPrediction := cleartexts.2.2
      .ok { s with
        decryptionContexts := updateMap s.decryptionContexts requestId
          { ctx with processed := true }
        events := Event.DecryptionCompleted requestId batchId proposalId
          targetValue marketPrediction
          (governanceDecision targetValue marketPrediction) :: s.events }

/-- One externally callable transaction against the contract. -/
inductive Op where
  | transferOwnership (sender newOwner : Nat)
  | addProvider (sender provider : Nat)
  | removeProvider (sender provider : Nat)
  | pause (sender : Nat)
  | unpause (sender : Nat)
  | setCooldownSeconds (sender newCooldownSeconds : Nat)
  | openBatch (sender : Nat)
  | closeBatch (sender : Nat)
  | submitProposal (sender now pid tv mp : Nat)
  | requestGovernanceDecision (sender now batchId requestId : Nat)
  | myCallback (requestId : Nat) (cleartexts : Nat × Nat × Nat) (proofValid : Bool)
  deriving Repr, DecidableEq

/-- Dispatch one transaction. -/
def step : Op → ContractState → Except Err ContractState
  | .transferOwnership sender newOwner, s => transferOwnership sender newOwner s
  | .addProvider sender provider, s => addProvider sender provider s
  | .removeProvider sender provider, s => removeProvider sender provider s
  | .pause sender, s => pause sender s
  | .unpause sender, s => unpause sender s
  | .setCooldownSeconds sender n, s => setCooldownSeconds sender n s
  | .openBatch sender, s => openBatch sender s
  | .closeBatch sender, s => closeBatch sender s
  | .submitProposal sender now pid tv mp, s => submitProposal sender now pid tv mp s
  | .requestGovernanceDecision sender now batchId requestId, s =>
      requestGovernanceDecision sender now batchId requestId s
  | .myCallback requestId cleartexts proofValid, s =>
      myCallback requestId cleartexts proofValid s

/-- Run a sequence of transactions, stopping at the first revert. -/
def runOps : List Op → ContractState → Except Err ContractState
  | [], s => .ok s
  | op :: rest, s =>
    match step op s with
    | .error e => .error e
    | .ok s1 => runOps rest s1

/-- Does this transaction call `openBatch`? -/
def opensBatch : Op → Bool
  | .openBatch _ => true
  | _ => false

/-- Number of `openBatch` transactions in a sequence. -/
def countOpen (ops : List Op) : Nat := (ops.filter opensBatch).length

/-- The batch ids assigned by the successful `openBatch` steps of a run
(each `openBatch` assigns the new value of `currentBatchId`); the
collection stops at the first revert. -/
def assignedIds : List Op → ContractState → List Nat
  | [], _ => []
  | op :: rest, s =>
    match step op s with
    | .error _ => []
    | .ok s1 =>
      (if opensBatch op then [s1.currentBatchId] else []) ++ assignedIds rest s1

/-- Is this transaction a `submitProposal` (the submission action class)? -/
def isSubmitOp : Op → Bool
  | .submitProposal _ _ _ _ _ => true
  | _ => false

/-- Is this transaction a `requestGovernanceDecision` (the
decryption-request action class)? -/
def isDecryptionRequestOp : Op → Bool
  | .requestGovernanceDecision _ _ _ _ => true
  | _ => false

/-- The fresh request id a transaction consumes, when it is a decryption
request.  `FHE.requestDecryption` guarantees globally unique ids, so a
well-formed trace never passes an id that already has a context; theorems
that track a given request id across a trace assume only that no later
request reuses that id. -/
def requestIdOf : Op → Option Nat
  | .requestGovernanceDecision _ _ _ requestId => some requestId
  | _ => none

/-- A concrete execution used by witnesses: deployer/provider is address 1,
the instance lives at address 100; returns the final state of a successful
run (and the fresh deployment if the run reverts, which the witnesses
rule out by `rfl`). -/
def exAfter (ops : List Op) : ContractState :=
  match runOps ops (deploy 1 100) with
  | .ok s => s
  | .error _ => deploy 1 100

/-- Witness scenario: open batch 1, submit the proposal (7, 60, 90) at
time 100, request its decryption at time 100 receiving request id 42. -/
def happyOps : List Op :=
  [Op.openBatch 1, Op.submitProposal 1 100 7 60 90,
   Op.requestGovernanceDecision 1 100 1 42]

/-- State with request 42 pending. -/
def reqState : ContractState := exAfter happyOps

/-- State after request 42 was settled by a valid callback. -/
def procState : ContractState :=
  exAfter (happyOps ++ [Op.myCallback 42 (7, 60, 90) true])

/-- State with request 42 pending and the system paused. -/
def pausedPendingState : ContractState := exAfter (happyOps ++ [Op.pause 1])

/-- State right after the deployer opened batch 1. -/
def openedState : ContractState := exAfter [Op.openBatch 1]

/-- State after batch 1 was opened and the proposal (7, 60, 90) submitted. -/
def submittedState : ContractState :=
  exAfter [Op.openBatch 1, Op.submitProposal 1 100 7 60 90]

/-- State where, after request 42 was issued for batch 1, the batch-1
proposal was overwritten with the fresh triple (8, 61, 91). -/
def overwrittenState : ContractState :=
  exAfter [Op.openBatch 1, Op.submitProposal 1 100 7 60 90,
    Op.requestGovernanceDecision 1 100 1 42, Op.submitProposal 1 200 8 61 91]

end FutarchyDAO

namespace FutarchyDAO

/-! ## General lemmas about the embedding -/

/-- Reading a mapping at the freshly written key. -/
theorem updateMap_self {α : Type} (f : Nat → α) (k : Nat) (v : α) :
    updateMap f k v k = v := by
  simp [updateMap]

/-- Reading a mapping at any other key. -/
theorem updateMap_ne {α : Type} (f : Nat → α) {k x : Nat} (v : α) (h : x ≠ k) :
    updateMap f k v x = f x := by
  simp [updateMap, h]

/-- A successful transaction changes `currentBatchId` by exactly 1 when it is
an `openBatch` and by 0 otherwise. -/
theorem step_batchId {op : Op} {s t : ContractState} (h : step op s = .ok t) :
    t.currentBatchId = s.currentBatchId + (if opensBatch op then 1 else 0) := by
  cases op <;>
    simp only [step, transferOwnership, addProvider, removeProvider, pause, unpause,
      setCooldownSeconds, openBatch, closeBatch, submitProposal,
      requestGovernanceDecision, myCallback, opensBatch] at h ⊢ <;>
    split_ifs at h <;>
    first
      | exact Except.noConfusion h
      | (injection h with h; subst h; simp)

/-- `currentBatchId` never decreases across a successful transaction. -/
theorem step_batchId_le {op : Op} {s t : ContractState} (h : step op s = .ok t) :
    s.currentBatchId ≤ t.currentBatchId := by
  rw [step_batchId h]
  split <;> omega

/-- No transaction other than `submitProposal` touches `lastSubmissionTime`. -/
theorem step_lastSubmissionTime {op : Op} {s t : ContractState}
    (h : step op s = .ok t) (hn : isSubmitOp op = false) :
    t.lastSubmissionTime = s.lastSubmissionTime := by
  cases op <;>
    simp only [isSubmitOp, Bool.true_eq_false] at hn <;>
    simp only [step, transferOwnership, addProvider, removeProvider, pause, unpause,
      setCooldownSeconds, openBatch, closeBatch,
      requestGovernanceDecision, myCallback] at h <;>
    split_ifs at h <;>
    first
      | exact Except.noConfusion h
      | (injection h with h; subst h; simp)

/-- No transaction other than `requestGovernanceDecision` touches
`lastDecryptionRequestTime`. -/
theorem step_lastDecryptionRequestTime {op : Op} {s t : ContractState}
    (h : step op s = .ok t) (hn : isDecryptionRequestOp op = false) :
    t.lastDecryptionRequestTime = s.lastDecryptionRequestTime := by
  cases op <;>
    simp only [isDecryptionRequestOp, Bool.true_eq_false] at hn <;>
    simp only [step, transferOwnership, addProvider, removeProvider, pause, unpause,
      setCooldownSeconds, openBatch, closeBatch, submitProposal,
      myCallback] at h <;>
    split_ifs at h <;>
    first
      | exact Except.noConfusion h
      | (injection h with h; subst h; simp)

/-- Once a context is `processed`, it stays `processed` across every
successful transaction, provided no later decryption request is handed the
same id again (`FHE.requestDecryption` guarantees globally unique ids). -/
theorem step_processed_mono {op : Op} {s t : ContractState} {r : Nat}
    (h : step op s = .ok t)
    (hp : (s.decryptionContexts r).processed = true)
    (hf : requestIdOf op ≠ some r) :
    (t.decryptionContexts r).processed = true := by
  cases op <;>
    simp only [requestIdOf, ne_eq, Option.some.injEq] at hf <;>
    simp only [step, transferOwnership, addProvider, removeProvider, pause, unpause,
      setCooldownSeconds, openBatch, closeBatch, submitProposal,
      requestGovernanceDecision, myCallback] at h <;>
    split_ifs at h <;>
    first
      | exact Except.noConfusion h
      | (injection h with h; subst h; simp only [updateMap]; split <;> simp_all)
      | (injection h with h; subst h; simp_all [updateMap])

/-- Over a successful run, `currentBatchId` grows by exactly the number of
`openBatch` transactions. -/
theorem runOps_batchId {ops : List Op} {s t : ContractState}
    (h : runOps ops s = .ok t) :
    t.currentBatchId = s.currentBatchId + countOpen ops := by
  induction ops generalizing s with
  | nil =>
    injection h with h
    subst h
    simp [countOpen]
  | cons op rest ih =>
    simp only [runOps] at h
    cases hstep : step op s with
    | error e => rw [hstep] at h; exact Except.noConfusion h
    | ok s1 =>
      rw [hstep] at h
      have h1 := ih h
      have h2 := step_batchId hstep
      simp only [countOpen, List.filter] at h1 h2 ⊢
      cases hob : opensBatch op <;> simp [hob] at h2 ⊢ <;> omega

/-- Every batch id assigned along a run is strictly above the starting
`currentBatchId`. -/
theorem assignedIds_lt {ops : List Op} {s : ContractState} {x : Nat}
    (hx : x ∈ assignedIds ops s) : s.currentBatchId < x := by
  induction ops generalizing s with
  | nil => simp [assignedIds] at hx
  | cons op rest ih =>
    simp only [assignedIds] at hx
    cases hstep : step op s with
    | error e => rw [hstep] at hx; simp at hx
    | ok s1 =>
      rw [hstep] at hx
      simp only [List.mem_append] at hx
      rcases hx with hx | hx
      · cases hob : opensBatch op <;> rw [hob] at hx <;> simp at hx
        have h2 := step_batchId hstep
        rw [hob] at h2
        simp at h2
        omega
      · have := ih hx
        have := step_batchId_le hstep
        omega

/-- The batch ids assigned along a run are strictly increasing. -/
theorem assignedIds_pairwise (ops : List Op) (s : ContractState) :
    (assignedIds ops s).Pairwise (· < ·) := by
  induction ops generalizing s with
  | nil => simp [assignedIds]
  | cons op rest ih =>
    simp only [assignedIds]
    cases hstep : step op s with
    | error e => simp
    | ok s1 =>
      cases hob : opensBatch op <;> simp only [List.nil_append, List.cons_append,
        if_pos, if_neg, Bool.false_eq_true, ite_false, ite_true]
      · exact ih s1
      · refine List.Pairwise.cons ?_ (ih s1)
        intro x hx
        exact assignedIds_lt hx

/-- No batch id is assigned twice along a run. -/
theorem assignedIds_nodup (ops : List Op) (s : ContractState) :
    (assignedIds ops s).Nodup :=
  (assignedIds_pairwise ops s).imp (fun h => Nat.ne_of_lt h)

/-! ## The claims -/

/-- C1: if a decryption request stores the fingerprint of batch B's three
handles and the proposal for B is then overwritten by `submitProposal` with
handles whose fingerprint differs, the callback for that request id fails
with `StateMismatch` (the fingerprint is recomputed from the handles
currently stored for the context's batch id and compared to the stored
fingerprint); the revert mutates no state. -/
theorem stale_callback_state_mismatch
    (s0 s1 s2 : ContractState)
    (sender now batchId requestId sender2 now2 pid tv mp : Nat)
    (cleartexts : Nat × Nat × Nat) (proofValid : Bool)
    (hreq : requestGovernanceDecision sender now batchId requestId s0 = .ok s1)
    (hsub : submitProposal sender2 now2 pid tv mp s1 = .ok s2)
    (hdiff : _hashCiphertexts [pid, tv, mp] s0.thisAddr ≠
        _hashCiphertexts [(s0.proposals batchId).encryptedProposalId,
          (s0.proposals batchId).encryptedTargetValue,
          (s0.proposals batchId).encryptedMarketPrediction] s0.thisAddr) :
    myCallback requestId cleartexts proofValid s2 = .error .StateMismatch := by
  simp only [requestGovernanceDecision] at hreq
  split_ifs at hreq with h1 h2 h3 h4 h5
  rw [not_ne_iff] at h4
  subst h4
  injection hreq with hreq
  subst hreq
  simp only [submitProposal] at hsub
  split_ifs at hsub with g1 g2 g3 _g4
  injection hsub with hsub
  subst hsub
  simp only [myCallback, updateMap]
  simp [hdiff]

/-- C1 witness: open batch 1, submit (7, 60, 90), request decryption
(request id 42), overwrite with (8, 61, 91): the original callback fails
with `StateMismatch`. -/
theorem stale_callback_state_mismatch_witness :
    requestGovernanceDecision 1 100 1 42 submittedState = .ok reqState ∧
    submitProposal 1 200 8 61 91 reqState = .ok overwrittenState ∧
    myCallback 42 (7, 60, 90) true overwrittenState = .error .StateMismatch :=
  ⟨rfl, rfl,
   stale_callback_state_mismatch submittedState reqState overwrittenState
     1 100 1 42 1 200 8 61 91 (7, 60, 90) true rfl rfl (by decide)⟩

/-- C2: a successful callback marks its request id processed; the flag stays
set across every later successful transaction (the external service never
reissues a request id); and any callback for a processed request id, with
any payload and any proof, fails with `ReplayAttempt` — the first check in
`myCallback`, so no other check runs, and the revert leaves all state
unchanged. -/
theorem callback_replay_rejected :
    (∀ requestId cleartexts proofValid s t,
        myCallback requestId cleartexts proofValid s = .ok t →
        (t.decryptionContexts requestId).processed = true) ∧
    (∀ op s t requestId, step op s = .ok t →
        (s.decryptionContexts requestId).processed = true →
        requestIdOf op ≠ some requestId →
        (t.decryptionContexts requestId).processed = true) ∧
    (∀ requestId cleartexts proofValid s,
        (s.decryptionContexts requestId).processed = true →
        myCallback requestId cleartexts proofValid s = .error .ReplayAttempt) := by
  refine ⟨?_, ?_, ?_⟩
  · intro requestId cleartexts proofValid s t h
    simp only [myCallback] at h
    split_ifs at h
    injection h with h
    subst h
    simp [updateMap]
  · intro op s t requestId h hp hf
    exact step_processed_mono h hp hf
  · intro requestId cleartexts proofValid s hp
    simp [myCallback, hp]

/-- C2 witness: after the settled scenario run, request 42 is processed, and
a second delivery with a garbage payload and an invalid proof fails with
`ReplayAttempt`. -/
theorem callback_replay_rejected_witness :
    (procState.decryptionContexts 42).processed = true ∧
    myCallback 42 (0, 0, 0) false procState = .error .ReplayAttempt :=
  ⟨rfl, callback_replay_rejected.2.2 42 (0, 0, 0) false procState rfl⟩

/-- C3 counterexample: the claim that while paused every mutating operation
except administrative unpause fails with the paused error is false on the
code: in a concrete paused state (scenario run then `pause()`),
`transferOwnership`, `setCooldownSeconds`, `addProvider`, `removeProvider`
and the decryption callback `myCallback` all succeed — none of them carries
the `whenNotPaused` modifier. -/
theorem pause_gating_counterexample :
    pausedPendingState.paused = true ∧
    (transferOwnership 1 2 pausedPendingState).isOk = true ∧
    (setCooldownSeconds 1 5 pausedPendingState).isOk = true ∧
    (addProvider 1 3 pausedPendingState).isOk = true ∧
    (removeProvider 1 3 pausedPendingState).isOk = true ∧
    (myCallback 42 (7, 60, 90) true pausedPendingState).isOk = true :=
  ⟨rfl, rfl, rfl, rfl, rfl, rfl⟩

/-- C3 (amended): while paused, exactly the operations carrying
`whenNotPaused` are blocked with the `Paused` error and change no state:
`openBatch`, `closeBatch`, `pause` itself (for the owner), and
`submitProposal` and `requestGovernanceDecision` (for a provider, the pause
check running before the cooldown and batch checks); `transferOwnership`,
`addProvider`, `removeProvider`, `setCooldownSeconds`, `unpause` and
`myCallback` are not gated by the pause flag, while read-only queries
remain available. -/
theorem paused_blocks_gated_operations (s : ContractState) (h : s.paused = true) :
    (∀ sender, sender = s.owner → openBatch sender s = .error .Paused) ∧
    (∀ sender, sender = s.owner → closeBatch sender s = .error .Paused) ∧
    (∀ sender, sender = s.owner → pause sender s = .error .Paused) ∧
    (∀ sender now pid tv mp, s.isProvider sender = true →
        submitProposal sender now pid tv mp s = .error .Paused) ∧
    (∀ sender now batchId requestId, s.isProvider sender = true →
        requestGovernanceDecision sender now batchId requestId s = .error .Paused) := by
  refine ⟨?_, ?_, ?_, ?_, ?_⟩
  · intro sender hown; simp [openBatch, hown, h]
  · intro sender hown; simp [closeBatch, hown, h]
  · intro sender hown; simp [pause, hown, h]
  · intro sender now pid tv mp hprov; simp [submitProposal, hprov, h]
  · intro sender now batchId requestId hprov
    simp [requestGovernanceDecision, hprov, h]

/-- C3 witness: in the concrete paused state, `openBatch` and
`submitProposal` fail with `Paused`. -/
theorem paused_blocks_gated_operations_witness :
    pausedPendingState.paused = true ∧
    openBatch 1 pausedPendingState = .error .Paused ∧
    submitProposal 1 1000 7 60 90 pausedPendingState = .error .Paused :=
  ⟨rfl,
   (paused_blocks_gated_operations pausedPendingState rfl).1 1 rfl,
   (paused_blocks_gated_operations pausedPendingState rfl).2.2.2.1 1 1000 7 60 90 rfl⟩

/-- C4: evaluation at the failing input.  Submitting with the uninitialized
zero handle as `encryptedProposalId` succeeds, yet the stored triple keeps
the zero handle — `_initIfNeeded` discards the handle returned by
`FHE.asEuint32(0)` instead of replacing the argument — so the stored
proposal fails `_isProposalInitialized` and the subsequent
`requestGovernanceDecision` for that batch reverts with
`ProposalNotInitialized`, contradicting the claimed defensive
normalization. -/
theorem submit_keeps_uninitialized_handle :
    (runOps [Op.openBatch 1, Op.submitProposal 1 100 0 60 90] (deploy 1 100)).map
      (fun s => ((s.proposals 1).encryptedProposalId, _isProposalInitialized s 1))
      = .ok (0, false) ∧
    runOps [Op.openBatch 1, Op.submitProposal 1 100 0 60 90,
      Op.requestGovernanceDecision 1 100 1 42] (deploy 1 100)
      = .error .ProposalNotInitialized :=
  ⟨rfl, rfl⟩

/-- C5: every successful callback emits `DecryptionCompleted` whose decision
is the non-strict comparison `marketPrediction >= targetValue` of the
decoded clear values; in particular target 50 / prediction 75 gives true,
target 80 / prediction 80 gives true (tie passes), target 80 /
prediction 79 gives false. -/
theorem callback_decision_nonstrict :
    (∀ requestId proposalId targetValue marketPrediction proofValid s t,
        myCallback requestId (proposalId, targetValue, marketPrediction)
          proofValid s = .ok t →
        t.events = Event.DecryptionCompleted requestId
            (s.decryptionContexts requestId).batchId proposalId targetValue
            marketPrediction (governanceDecision targetValue marketPrediction)
          :: s.events) ∧
    governanceDecision 50 75 = true ∧
    governanceDecision 80 80 = true ∧
    governanceDecision 80 79 = false := by
  refine ⟨?_, by decide, by decide, by decide⟩
  intro requestId proposalId targetValue marketPrediction proofValid s t h
  simp only [myCallback] at h
  split_ifs at h
  injection h with h
  subst h
  simp

/-- C5 witness: the scenario callback delivering (7, 60, 90) for request 42
settles with decision true (90 ≥ 60). -/
theorem callback_decision_nonstrict_witness :
    myCallback 42 (7, 60, 90) true reqState = .ok procState ∧
    procState.events = Event.DecryptionCompleted 42 1 7 60 90 true :: reqState.events :=
  ⟨rfl, callback_decision_nonstrict.1 42 7 60 90 true reqState procState rfl⟩

/-- C6: `currentBatchId` changes only through `openBatch`, which increments
it by exactly 1; over any successful run it grows by exactly the number of
`openBatch` calls (initial value + N after N of them); and the batch ids
assigned by `openBatch` along a run are strictly increasing, hence never
reused. -/
theorem batch_id_monotone :
    (∀ op s t, step op s = .ok t →
        t.currentBatchId = s.currentBatchId + (if opensBatch op then 1 else 0)) ∧
    (∀ ops s t, runOps ops s = .ok t →
        t.currentBatchId = s.currentBatchId + countOpen ops) ∧
    (∀ ops s, (assignedIds ops s).Pairwise (· < ·)) ∧
    (∀ ops s, (assignedIds ops s).Nodup) :=
  ⟨fun _ _ _ h => step_batchId h,
   fun _ _ _ h => runOps_batchId h,
   assignedIds_pairwise,
   assignedIds_nodup⟩

/-- C6 witness: two `openBatch` calls around a `closeBatch` leave
`currentBatchId` at its initial value plus 2. -/
theorem batch_id_monotone_witness :
    runOps [Op.openBatch 1, Op.closeBatch 1, Op.openBatch 1] (deploy 1 100)
      = .ok (exAfter [Op.openBatch 1, Op.closeBatch 1, Op.openBatch 1]) ∧
    (exAfter [Op.openBatch 1, Op.closeBatch 1, Op.openBatch 1]).currentBatchId
      = (deploy 1 100).currentBatchId
        + countOpen [Op.openBatch 1, Op.closeBatch 1, Op.openBatch 1] :=
  ⟨rfl, batch_id_monotone.2.1 [Op.openBatch 1, Op.closeBatch 1, Op.openBatch 1]
    (deploy 1 100) (exAfter [Op.openBatch 1, Op.closeBatch 1, Op.openBatch 1]) rfl⟩

/-- C7: a successful `submitProposal` sets the sender's submission-class
timestamp to `now` and leaves the decryption-request class untouched; a
successful `requestGovernanceDecision` does the converse; and no other
transaction touches either class.  A failed check is a revert
(`Except.error`), which by construction leaves every timestamp unchanged. -/
theorem cooldown_timestamp_update :
    (∀ sender now pid tv mp s t,
        submitProposal sender now pid tv mp s = .ok t →
        t.lastSubmissionTime = updateMap s.lastSubmissionTime sender now ∧
        t.lastDecryptionRequestTime = s.lastDecryptionRequestTime) ∧
    (∀ sender now batchId requestId s t,
        requestGovernanceDecision sender now batchId requestId s = .ok t →
        t.lastDecryptionRequestTime = updateMap s.lastDecryptionRequestTime sender now ∧
        t.lastSubmissionTime = s.lastSubmissionTime) ∧
    (∀ op s t, step op s = .ok t → isSubmitOp op = false →
        t.lastSubmissionTime = s.lastSubmissionTime) ∧
    (∀ op s t, step op s = .ok t → isDecryptionRequestOp op = false →
        t.lastDecryptionRequestTime = s.lastDecryptionRequestTime) := by
  refine ⟨?_, ?_, ?_, ?_⟩
  · intro sender now pid tv mp s t h
    simp only [submitProposal] at h
    split_ifs at h
    injection h with h
    subst h
    exact ⟨rfl, rfl⟩
  · intro sender now batchId requestId s t h
    simp only [requestGovernanceDecision] at h
    split_ifs at h
    injection h with h
    subst h
    exact ⟨rfl, rfl⟩
  · intro op s t h hn
    exact step_lastSubmissionTime h hn
  · intro op s t h hn
    exact step_lastDecryptionRequestTime h hn

/-- C7 witness: the scenario submission at time 100 updates only the
sender's submission-class timestamp. -/
theorem cooldown_timestamp_update_witness :
    submitProposal 1 100 7 60 90 openedState = .ok submittedState ∧
    submittedState.lastSubmissionTime = updateMap openedState.lastSubmissionTime 1 100 ∧
    submittedState.lastDecryptionRequestTime = openedState.lastDecryptionRequestTime :=
  ⟨rfl,
   (cooldown_timestamp_update.1 1 100 7 60 90 openedState submittedState rfl).1,
   (cooldown_timestamp_update.1 1 100 7 60 90 openedState submittedState rfl).2⟩

/-- C8: at construction the deployer becomes the owner, is automatically
added to the provider set with a `ProviderAdded` event emitted, and the
cooldown interval starts at 60 seconds — the fresh instance is not
empty-by-default. -/
theorem deploy_provider_and_cooldown_defaults (sender thisAddr : Nat) :
    (deploy sender thisAddr).owner = sender ∧
    (deploy sender thisAddr).isProvider sender = true ∧
    (deploy sender thisAddr).events = [Event.ProviderAdded sender] ∧
    (deploy sender thisAddr).cooldownSeconds = 60 := by
  refine ⟨rfl, ?_, rfl, rfl⟩
  simp [deploy, updateMap]

/-- C9: a callback for a request id with no stored context never reports a
dedicated unknown-request error: the default context (processed false, zero
fingerprint, batch id 0) passes the replay check, and the call fails with
`StateMismatch` whenever the fingerprint recomputed over batch 0's stored
handles differs from the all-zero fingerprint — so it never settles a
decision. -/
theorem callback_unknown_request (s : ContractState) (requestId : Nat)
    (cleartexts : Nat × Nat × Nat) (proofValid : Bool)
    (hctx : s.decryptionContexts requestId = zeroContext)
    (hne : _hashCiphertexts [(s.proposals 0).encryptedProposalId,
        (s.proposals 0).encryptedTargetValue,
        (s.proposals 0).encryptedMarketPrediction] s.thisAddr ≠ 0) :
    (s.decryptionContexts requestId).processed = false ∧
    myCallback requestId cleartexts proofValid s = .error .StateMismatch := by
  constructor
  · rw [hctx]; rfl
  · simp [myCallback, hctx, zeroContext, hne]

/-- C9 witness: on a fresh deployment, delivering a callback for the never
issued request id 5 fails with `StateMismatch`. -/
theorem callback_unknown_request_witness :
    (deploy 1 100).decryptionContexts 5 = zeroContext ∧
    myCallback 5 (1, 2, 3) true (deploy 1 100) = .error .StateMismatch :=
  ⟨rfl, (callback_unknown_request (deploy 1 100) 5 (1, 2, 3) true rfl (by decide)).2⟩

/-- C10: `openBatch` succeeds for the owner whenever the system is not
paused — even when the current batch is still open — and increments
`currentBatchId`; and `requestGovernanceDecision` (called by a provider,
unpaused, cooldown elapsed) rejects every batch id other than the current
one with `InvalidBatchId`, so a proposal stored under a previous batch id
is permanently ineligible. -/
theorem open_batch_unconditional_for_owner :
    (∀ s sender, sender = s.owner → s.paused = false →
        openBatch sender s = .ok { s with
          currentBatchId := s.currentBatchId + 1
          batchOpen := true
          events := Event.BatchOpened (s.currentBatchId + 1) :: s.events }) ∧
    (∀ s sender now batchId requestId,
        s.isProvider sender = true → s.paused = false →
        s.lastDecryptionRequestTime sender + s.cooldownSeconds ≤ now →
        batchId ≠ s.currentBatchId →
        requestGovernanceDecision sender now batchId requestId s
          = .error .InvalidBatchId) := by
  constructor
  · intro s sender hown hpause
    simp [openBatch, hown, hpause]
  · intro s sender now batchId requestId hprov hpause hcool hbid
    simp only [requestGovernanceDecision, hprov, hpause]
    simp [hbid, Nat.not_lt.mpr hcool]

/-- C10 witness: with batch 1 still open, a second `openBatch` succeeds and
moves `currentBatchId` to 2, after which requesting a decision for the old
batch id 0 fails with `InvalidBatchId`. -/
theorem open_batch_unconditional_for_owner_witness :
    openedState.batchOpen = true ∧
    openBatch 1 openedState = .ok { openedState with
      currentBatchId := openedState.currentBatchId + 1
      batchOpen := true
      events := Event.BatchOpened (openedState.currentBatchId + 1) :: openedState.events } ∧
    requestGovernanceDecision 1 100 0 99 openedState = .error .InvalidBatchId :=
  ⟨rfl,
   open_batch_unconditional_for_owner.1 openedState 1 rfl rfl,
   open_batch_unconditional_for_owner.2 openedState 1 100 0 99 (by decide) rfl
     (by decide) (by decide)⟩

end FutarchyDAO
